import Mathlib

/-
  Verification of the Peacock audio-library title engine.

  The definitions below are shallow embeddings of the Python sources:
  `lib/title_suggester.py` (TitleSuggester), `lib/metadata_manager.py`
  (MetadataManager) and the serving layer `peacock_server.py` /
  `peacock.py`.  Strings are modelled as Lean `String` / `List Char`
  (ASCII fragment of Python's regex character classes), optional tag
  values as `Option String`, and floating-point durations and running
  size values as exact rationals.
-/

namespace Peacock

/-- Python regex `\s` on the ASCII range: space, tab, newline, vertical
tab, form feed, carriage return. -/
def pySpaceChar (c : Char) : Bool :=
  c == ' ' || c == '\t' || c == '\n' || c == '\x0b' || c == '\x0c' || c == '\r'

/-- Character class `[\s_-]` from `TitleSuggester._is_generic_title`. -/
def sepChar (c : Char) : Bool :=
  pySpaceChar c || c == '_' || c == '-'

/-- Bool test that a list starts with at least `n` characters, the first
`n` of which are decimal digits: the shape of a `\d{n}` regex atom. -/
def digitsAt (n : Nat) (cs : List Char) : Bool :=
  decide (n ≤ cs.length) && (cs.take n).all (·.isDigit)

/-- Numeric value of a list of decimal digit characters (most significant
first), as produced by Python `int(...)` on a digit group. -/
def digitsToNat (cs : List Char) : Nat :=
  cs.foldl (fun a c => 10 * a + (c.toNat - 48)) 0

/-- Python `filename.rsplit('.', 1)[0]`: everything before the last dot,
or the whole string when there is no dot. -/
def stripExt (s : String) : String :=
  let r := s.toList.reverse
  if r.contains '.' then String.mk (((r.dropWhile (· != '.')).drop 1).reverse) else s

/-- The regex `^\d{8}[\s_-]?\d{6}` from `TitleSuggester._is_generic_title`:
eight digits, an optional single separator, six digits, anchored at the
start.  Separator characters are never digits, so the regex engine's
backtracking collapses to this case split. -/
def tsStartMatch (cs : List Char) : Bool :=
  digitsAt 8 cs &&
    (digitsAt 6 (cs.drop 8) ||
      (match cs.drop 8 with
       | c :: rest => sepChar c && digitsAt 6 rest
       | [] => false))

/-- Embedding of `TitleSuggester._is_generic_title`. -/
def isGenericTitle (title filename : String) : Bool :=
  title == stripExt filename || tsStartMatch title.toList || decide (title.length < 3)

/-- Embedding of `re.search` with pattern `(\d{4})(\d{2})(\d{2})`
(`TitleSuggester.date_pattern`): the leftmost window of eight consecutive
digits, split into its three numeric groups. -/
def searchDate8 : List Char → Option (Nat × Nat × Nat)
  | [] => none
  | c :: tl =>
    if digitsAt 8 (c :: tl) then
      some (digitsToNat ((c :: tl).take 4),
            digitsToNat (((c :: tl).drop 4).take 2),
            digitsToNat (((c :: tl).drop 6).take 2))
    else searchDate8 tl

/-- Gregorian leap-year rule, as used by Python `datetime`. -/
def isLeapYear (y : Nat) : Bool :=
  y % 4 == 0 && (y % 100 != 0 || y % 400 == 0)

/-- Number of days in a month of the proleptic Gregorian calendar. -/
def daysInMonth (y m : Nat) : Nat :=
  if m == 2 then (if isLeapYear y then 29 else 28)
  else if m == 4 || m == 6 || m == 9 || m == 11 then 30
  else 31

/-- Validity of `datetime(year, month, day)` in Python: construction
raises `ValueError` outside these bounds (`MINYEAR = 1`, `MAXYEAR = 9999`). -/
def validDate (y m d : Nat) : Bool :=
  decide (1 ≤ y) && decide (y ≤ 9999) && decide (1 ≤ m) && decide (m ≤ 12) &&
    decide (1 ≤ d) && decide (d ≤ daysInMonth y m)

/-- English month name, as produced by `strftime('%B')`. -/
def monthName : Nat → String
  | 1 => "January"
  | 2 => "February"
  | 3 => "March"
  | 4 => "April"
  | 5 => "May"
  | 6 => "June"
  | 7 => "July"
  | 8 => "August"
  | 9 => "September"
  | 10 => "October"
  | 11 => "November"
  | 12 => "December"
  | _ => ""

/-- Two-digit zero padding of a natural number: `f"{n:02d}"` for `n ≥ 0`. -/
def pad2 (n : Nat) : String :=
  if n < 10 then "0" ++ toString n else toString n

/-- The string built by `f"Recording {date_obj.strftime('%B %d, %Y')}"`:
full month name, zero-padded day, unpadded year. -/
def formatRecordingDate (y m d : Nat) : String :=
  "Recording " ++ monthName m ++ " " ++ pad2 d ++ ", " ++ toString y

/-- Embedding of `TitleSuggester._extract_date_based_title`: take the
leftmost eight-digit window of the filename; if its groups form a valid
date, format it, otherwise (or with no window at all) return `""`. -/
def extractDateBasedTitle (filename : String) : String :=
  match searchDate8 filename.toList with
  | some (y, m, d) => if validDate y m d then formatRecordingDate y m d else ""
  | none => ""

/-- One step of `re.sub(r'\d{8}\s*\d{6}', '', s)`: if a timestamp-shaped
match starts at the head of `cs`, return the remainder after the match.
The whitespace run is maximal, because a digit can never follow a shorter
prefix of a whitespace run. -/
def matchTs (cs : List Char) : Option (List Char) :=
  if digitsAt 8 cs then
    if digitsAt 6 (((cs.drop 8).drop ((cs.drop 8).takeWhile pySpaceChar).length)) then
      some ((((cs.drop 8).drop ((cs.drop 8).takeWhile pySpaceChar).length)).drop 6)
    else none
  else none

/-- Fuelled worker for `reSubTs` below.  Every successful match removes
at least 14 characters and every failed position advances by one, so
fuel equal to the list length always suffices; the recursion is
structural in the fuel, which keeps the function kernel-computable. -/
def reSubTsF : Nat → List Char → List Char
  | _, [] => []
  | fuel + 1, c :: tl =>
    match matchTs (c :: tl) with
    | some rem => reSubTsF fuel rem
    | none => c :: reSubTsF fuel tl
  | 0, cs => cs

/-- Embedding of `re.sub(r'\d{8}\s*\d{6}', '', s)` in
`TitleSuggester._clean_filename`: scan left to right, deleting each
leftmost non-overlapping timestamp-shaped match. -/
def reSubTs (cs : List Char) : List Char :=
  reSubTsF cs.length cs

/-- Fuelled worker for `collapseWs` below; fuel equal to the list length
always suffices. -/
def collapseWsF : Nat → List Char → List Char
  | _, [] => []
  | fuel + 1, c :: tl =>
    if pySpaceChar c then ' ' :: collapseWsF fuel (tl.dropWhile pySpaceChar)
    else c :: collapseWsF fuel tl
  | 0, cs => cs

/-- Embedding of `re.sub(r'\s+', ' ', s)`: every maximal whitespace run
becomes a single space. -/
def collapseWs (cs : List Char) : List Char :=
  collapseWsF cs.length cs

/-- Python `str.strip()`: drop whitespace from both ends. -/
def pyStrip (cs : List Char) : List Char :=
  ((cs.dropWhile pySpaceChar).reverse.dropWhile pySpaceChar).reverse

/-- Embedding of `TitleSuggester._clean_filename`: strip the extension,
turn `_` and `-` into spaces, delete timestamp-shaped runs, collapse
whitespace, trim, capitalize the first character, and fall back to the
original filename when the result is empty. -/
def cleanFilename (filename : String) : String :=
  let t0 := (stripExt filename).toList
  let t1 := (t0.map (fun c => if c == '_' then ' ' else c)).map
    (fun c => if c == '-' then ' ' else c)
  let t2 := reSubTs t1
  let t3 := collapseWs t2
  let t4 := pyStrip t3
  let t5 := match t4 with
    | [] => ([] : List Char)
    | c :: tl => c.toUpper :: tl
  let r := String.mk t5
  if r = "" then filename else r

/-- One metadata record, with the exact field set built by
`MetadataManager.extract_metadata`.  Descriptive tags are optional
(`None` in Python); the duration is a rational standing for the float
length reported by the tag library. -/
structure AudioMetadata where
  filename : String
  file_path : String
  title : Option String
  artist : Option String
  album : Option String
  genre : Option String
  date : Option String
  comment : Option String
  duration : Nat
  duration_formatted : String
  bitrate : Nat
  sample_rate : Nat
  file_size : Nat
  file_size_formatted : String
  created_date : String
  format : String
deriving DecidableEq

/-- Embedding of `TitleSuggester.generate_suggestion`.  `metadata.get('title', '')`
collapses an absent or `None` title to the empty string, and the first
branch fires only for a truthy (non-empty) non-generic title. -/
def generate_suggestion (m : AudioMetadata) : String :=
  let filename := m.filename
  let current_title := m.title.getD ""
  if current_title ≠ "" ∧ isGenericTitle current_title filename = false then current_title
  else if extractDateBasedTitle filename ≠ "" then extractDateBasedTitle filename
  else cleanFilename filename

/-- The per-record current title used by
`TitleSuggester.get_suggestions_for_library`:
`metadata.get('title') or metadata.get('filename', '')`, which falls back
to the filename when the title is absent, `None`, or empty. -/
def currentTitle (m : AudioMetadata) : String :=
  if m.title.getD "" = "" then m.filename else m.title.getD ""

/-- One suggestion dictionary emitted by
`TitleSuggester.get_suggestions_for_library`. -/
structure TitleSuggestion where
  file_path : String
  filename : String
  current_title : String
  suggested_title : String
deriving DecidableEq

/-- Embedding of `TitleSuggester.get_suggestions_for_library`: one
suggestion per record whose generated title differs from its current
title, in input order. -/
def get_suggestions_for_library (ms : List AudioMetadata) : List TitleSuggestion :=
  ms.filterMap (fun m =>
    if generate_suggestion m ≠ currentTitle m then
      some ⟨m.file_path, m.filename, currentTitle m, generate_suggestion m⟩
    else none)

/-- Applying every emitted suggestion back onto the library: each record
that received a suggestion has its title set to the suggested string,
every other record is untouched. -/
def applySuggestions (ms : List AudioMetadata) : List AudioMetadata :=
  ms.map (fun m =>
    if generate_suggestion m ≠ currentTitle m then
      { m with title := some (generate_suggestion m) }
    else m)

/-- Embedding of `MetadataManager._format_duration`.  `None` and `0` both
fail Python's truthiness test and short-circuit to `"0:00"`; otherwise
hours, minutes and seconds come from floor division and floor modulus,
hours unpadded, minutes and seconds zero-padded.  Durations are modelled
at whole-second granularity: the Python code floors the float length
through `int(...)` before rendering, so whole-second inputs determine
every reachable output shape. -/
def format_duration_mm : Option Nat → String
  | none => "0:00"
  | some s =>
    if s = 0 then "0:00"
    else
      let hours := s / 3600
      let minutes := s % 3600 / 60
      let secs := s % 60
      if hours > 0 then toString hours ++ ":" ++ pad2 minutes ++ ":" ++ pad2 secs
      else toString minutes ++ ":" ++ pad2 secs

/-- Embedding of `PeacockkMetadataExtractor.format_duration` from
`peacock.py`: `None` maps to `"Unknown"`, there is no zero check, and the
hours and minutes fields are always zero-padded. -/
def format_duration_pk : Option Nat → String
  | none => "Unknown"
  | some s =>
    let hours := s / 3600
    let minutes := s % 3600 / 60
    let secs := s % 60
    if hours > 0 then pad2 hours ++ ":" ++ pad2 minutes ++ ":" ++ pad2 secs
    else pad2 minutes ++ ":" ++ pad2 secs

/-- The unit list of the loop in `MetadataManager._format_size`. -/
def sizeUnits : List String := ["B", "KB", "MB", "GB", "TB"]

/-- The loop of `MetadataManager._format_size`, reduced to the exact
running value and the chosen unit: stop at the first unit where the value
is below 1024, divide by 1024 otherwise, and fall through to `"PB"` after
the list is exhausted. -/
def format_size_steps : ℚ → List String → ℚ × String
  | v, [] => (v, "PB")
  | v, u :: us => if v < 1024 then (v, u) else format_size_steps (v / 1024) us

/-- Value and unit produced by `MetadataManager._format_size` for a byte
count; the rendered string is the value to two decimal places followed by
a space and the unit. -/
def format_size (b : ℚ) : ℚ × String :=
  format_size_steps b sizeUnits

/-- Embedding of `MetadataManager._get_tag`: `audio.get(tag_name, [''])[0]`
with the `IndexError` of an empty stored list caught, and a falsy (empty)
value normalized to `None`.  The tag container is modelled as a partial
map from tag names to lists of strings, the shape mutagen's easy tags
expose. -/
def get_tag (tags : String → Option (List String)) (tag_name : String) : Option String :=
  match (tags tag_name).getD [""] with
  | [] => none
  | v :: _ => if v = "" then none else some v

/-- Embedding of the record construction in
`MetadataManager.extract_metadata`, abstracted over the tag container and
the filesystem facts (sizes, timestamps, stream info) that the code reads
from its environment. -/
def extract_metadata (tags : String → Option (List String))
    (file_path filename : String) (duration : Nat) (bitrate sample_rate : Nat)
    (file_size : Nat) (file_size_formatted created_date fmt : String) :
    AudioMetadata :=
  { filename := filename
    file_path := file_path
    title := get_tag tags "title"
    artist := get_tag tags "artist"
    album := get_tag tags "album"
    genre := get_tag tags "genre"
    date := get_tag tags "date"
    comment := get_tag tags "comment"
    duration := duration
    duration_formatted := format_duration_mm (some duration)
    bitrate := bitrate
    sample_rate := sample_rate
    file_size := file_size
    file_size_formatted := file_size_formatted
    created_date := created_date
    format := fmt }

/-- Outcome of opening one file through the tag library, as seen by
`MetadataManager.update_title`: the `mutagen.File` call can raise, return
`None` for an unrecognized container, or yield a container whose `save`
either succeeds or raises. -/
inductive TagOpen where
  | failure (msg : String)
  | noContainer
  | container (saveResult : Except String Unit)

/-- Embedding of `MetadataManager.update_title`: every failure path —
open exception, unrecognized container, save exception — is caught and
becomes `false`; only a successful save returns `true`. -/
def update_title (fs : String → TagOpen) (file_path new_title : String) : Bool :=
  match fs file_path with
  | .failure _ => false
  | .noContainer => false
  | .container (.error _) => false
  | .container (.ok _) =>
    let _ := new_title
    true

/-- The result dictionary of `MetadataManager.update_multiple_titles`:
success and failure counts plus one `(file, error)` entry per failure. -/
structure BatchReport where
  success_count : Nat
  failed_count : Nat
  errors : List (String × String)
deriving DecidableEq

/-- Embedding of `MetadataManager.update_multiple_titles`: the
instructions are processed sequentially through `update_title`, counting
successes and failures and appending an error entry for each failure. -/
def update_multiple_titles (fs : String → TagOpen) :
    List (String × String) → BatchReport
  | [] => ⟨0, 0, []⟩
  | u :: us =>
    let rest := update_multiple_titles fs us
    if update_title fs u.1 u.2 then
      { rest with success_count := rest.success_count + 1 }
    else
      { success_count := rest.success_count
        failed_count := rest.failed_count + 1
        errors := (u.1, "Failed to update") :: rest.errors }

/-- The in-memory mutation loop of the serving layer's `update_title`
handler (`peacock_server.py`): walk `audio_metadata`, set the title of the
first record whose `file_path` matches, and `break`. -/
def setFirstTitle (fp nt : String) : List AudioMetadata → List AudioMetadata
  | [] => []
  | r :: rs =>
    if r.file_path == fp then { r with title := some nt } :: rs
    else r :: setFirstTitle fp nt rs

/-- The effect of one `/api/update_title` request on the in-memory record
collection, given whether `update_file_metadata` reported a successful
on-disk write: only a successful write triggers the first-match title
mutation; a failed write (like a rejected request) leaves the collection
untouched. -/
def update_title_endpoint (writeOk : Bool) (records : List AudioMetadata)
    (fp nt : String) : List AudioMetadata :=
  if writeOk then setFirstTitle fp nt records else records

/-- Whether some window of eight consecutive digits anywhere in the
string forms a valid calendar date.  This is the condition the spec's
date rule quantifies over ("the filename contains a contiguous 8-digit
run ... whose three numeric groups form a valid calendar date"); the code
itself only ever examines the leftmost window. -/
def hasValidDateRun : List Char → Bool
  | [] => false
  | c :: tl =>
    (digitsAt 8 (c :: tl) &&
      validDate (digitsToNat ((c :: tl).take 4))
        (digitsToNat (((c :: tl).drop 4).take 2))
        (digitsToNat (((c :: tl).drop 6).take 2)))
      || hasValidDateRun tl

/-- The separator set named by the spec's genericity rule: space,
underscore or hyphen only (the code's regex class `[\s_-]` is wider). -/
def spaceSepChar (c : Char) : Bool :=
  c == ' ' || c == '_' || c == '-'

/-- The timestamp-like prefix exactly as the spec words it: 8 digits,
optionally one of space/underscore/hyphen, then 6 digits. -/
def claimTsStart (cs : List Char) : Bool :=
  digitsAt 8 cs &&
    (digitsAt 6 (cs.drop 8) ||
      (match cs.drop 8 with
       | c :: rest => spaceSepChar c && digitsAt 6 rest
       | [] => false))

/-- The genericity predicate exactly as the spec words it, for comparison
with the code's `isGenericTitle`. -/
def claimIsGeneric (t f : String) : Bool :=
  t == stripExt f || claimTsStart t.toList || decide (t.length < 3)

/-- Declarative reading of the code's timestamp-prefix regex: the title's
characters decompose into 8 digits, an optional single separator from the
class whitespace/underscore/hyphen, 6 digits, and an arbitrary tail. -/
def SpecTsStart (t : String) : Prop :=
  ∃ d8 sep d6 rest : List Char,
    t.toList = d8 ++ (sep ++ (d6 ++ rest)) ∧
    d8.length = 8 ∧ (∀ c ∈ d8, c.isDigit = true) ∧
    d6.length = 6 ∧ (∀ c ∈ d6, c.isDigit = true) ∧
    (sep = [] ∨ ∃ c, sepChar c = true ∧ sep = [c])

/-- A metadata record with the given path, filename and title and inert
technical fields; used to instantiate universally quantified theorems at
concrete inputs. -/
def mdOf (fp fn : String) (t : Option String) : AudioMetadata :=
  ⟨fn, fp, t, none, none, none, none, none, 0, "", 0, 0, 0, "", "", ""⟩

/-- A concrete tag container: a non-empty title, an artist stored as the
empty string, and every other tag absent. -/
def tagsSample : String → Option (List String) :=
  fun name => if name = "title" then some ["T"]
    else if name = "artist" then some [""]
    else none

/-- C7: `MetadataManager._format_duration` returns `"0:00"` for an absent
or zero duration; otherwise, with hours, minutes and seconds obtained by
floor division, it renders `H:MM:SS` (hours unpadded, minutes and seconds
zero-padded) when hours are positive and `M:SS` (minutes unpadded,
seconds zero-padded) otherwise; in particular `0 ↦ "0:00"`,
`3661 ↦ "1:01:01"` and `125 ↦ "2:05"`. -/
theorem format_duration_mm_spec :
    format_duration_mm none = "0:00" ∧
    format_duration_mm (some 0) = "0:00" ∧
    (∀ s : Nat, s ≠ 0 → 0 < s / 3600 →
      format_duration_mm (some s)
        = toString (s / 3600) ++ ":" ++ pad2 (s % 3600 / 60) ++ ":" ++ pad2 (s % 60)) ∧
    (∀ s : Nat, s ≠ 0 → s / 3600 = 0 →
      format_duration_mm (some s) = toString (s % 3600 / 60) ++ ":" ++ pad2 (s % 60)) ∧
    format_duration_mm (some 3661) = "1:01:01" ∧
    format_duration_mm (some 125) = "2:05" := by
  refine ⟨rfl, rfl, ?_, ?_, by decide, by decide⟩
  · intro s hs hh
    simp only [format_duration_mm]
    rw [if_neg hs, if_pos hh]
  · intro s hs hh
    simp only [format_duration_mm]
    rw [if_neg hs, if_neg (by omega : ¬ 0 < s / 3600)]

/-- Witness for C7 at the concrete duration 3661. -/
theorem format_duration_mm_spec_witness :
    format_duration_mm (some 3661)
      = toString (3661 / 3600) ++ ":" ++ pad2 (3661 % 3600 / 60) ++ ":" ++ pad2 (3661 % 60) :=
  format_duration_mm_spec.2.2.1 3661 (by decide) (by decide)

/-- C8 counterexample: the two duration formatters disagree.  At 125
seconds the library renders `"2:05"` while the report variant renders
`"02:05"`, and for an absent duration they render `"0:00"` and
`"Unknown"`; so they do not compute the same function. -/
theorem format_duration_impls_differ :
    format_duration_mm (some 125) = "2:05" ∧
    format_duration_pk (some 125) = "02:05" ∧
    format_duration_mm (some 125) ≠ format_duration_pk (some 125) ∧
    format_duration_mm (some 0) = "0:00" ∧
    format_duration_pk (some 0) = "00:00" ∧
    format_duration_mm none = "0:00" ∧
    format_duration_pk none = "Unknown" := by
  refine ⟨by decide, by decide, by decide, by decide, by decide, by decide, by decide⟩

theorem toStringLengthLt10 {n : Nat} (h : n < 10) : (toString n).length = 1 := by
  interval_cases n <;> decide

theorem pad2LengthTwo {n : Nat} (h : n < 10) : (pad2 n).length = 2 := by
  unfold pad2
  rw [if_pos h, String.length_append, toStringLengthLt10 h]
  decide

/-- C8 amended: the two duration formatters return equal strings exactly
on present durations whose hour count is at least 10, or whose hour count
is zero with a minute count of at least 10 - the region where no
leading-field padding and no zero special case can bite.  On every other
present duration (zero, a single-digit positive hour field, or a
zero-hour single-digit minute field) the outputs differ, as they do on an
absent duration (`"0:00"` against `"Unknown"`). -/
theorem format_duration_mm_pk_agree :
    (∀ s : Nat,
      format_duration_mm (some s) = format_duration_pk (some s) ↔
        (10 ≤ s / 3600 ∨ (s / 3600 = 0 ∧ 10 ≤ s % 3600 / 60))) ∧
    format_duration_mm none ≠ format_duration_pk none := by
  constructor
  · intro s
    constructor
    · intro heq
      by_cases h0 : s = 0
      · subst h0
        exact absurd heq (by decide)
      by_cases hh10 : 10 ≤ s / 3600
      · exact Or.inl hh10
      by_cases hh0 : 0 < s / 3600
      · exfalso
        have hmm : format_duration_mm (some s)
            = toString (s / 3600) ++ ":" ++ pad2 (s % 3600 / 60) ++ ":" ++ pad2 (s % 60) := by
          simp only [format_duration_mm]
          rw [if_neg h0, if_pos hh0]
        have hpk : format_duration_pk (some s)
            = pad2 (s / 3600) ++ ":" ++ pad2 (s % 3600 / 60) ++ ":" ++ pad2 (s % 60) := by
          simp only [format_duration_pk]
          rw [if_pos hh0]
        rw [hmm, hpk] at heq
        have hlen := congrArg String.length heq
        simp only [String.length_append] at hlen
        rw [toStringLengthLt10 (show s / 3600 < 10 by omega),
          pad2LengthTwo (show s / 3600 < 10 by omega)] at hlen
        omega
      · have hh : s / 3600 = 0 := by omega
        by_cases hm10 : 10 ≤ s % 3600 / 60
        · exact Or.inr ⟨hh, hm10⟩
        · exfalso
          have hmm : format_duration_mm (some s)
              = toString (s % 3600 / 60) ++ ":" ++ pad2 (s % 60) := by
            simp only [format_duration_mm]
            rw [if_neg h0, if_neg hh0]
          have hpk : format_duration_pk (some s)
              = pad2 (s % 3600 / 60) ++ ":" ++ pad2 (s % 60) := by
            simp only [format_duration_pk]
            rw [if_neg hh0]
          rw [hmm, hpk] at heq
          have hlen := congrArg String.length heq
          simp only [String.length_append] at hlen
          rw [toStringLengthLt10 (show s % 3600 / 60 < 10 by omega),
            pad2LengthTwo (show s % 3600 / 60 < 10 by omega)] at hlen
          omega
    · intro h
      simp only [format_duration_mm, format_duration_pk]
      rcases h with h10 | ⟨h0, hm⟩
      · have hs : s ≠ 0 := by omega
        have hpos : 0 < s / 3600 := by omega
        rw [if_neg hs, if_pos hpos, if_pos hpos]
        have hp : pad2 (s / 3600) = toString (s / 3600) := by
          unfold pad2
          rw [if_neg (by omega)]
        rw [hp]
      · have hs : s ≠ 0 := by omega
        rw [if_neg hs, if_neg (by omega : ¬ 0 < s / 3600),
          if_neg (by omega : ¬ 0 < s / 3600)]
        have hp : pad2 (s % 3600 / 60) = toString (s % 3600 / 60) := by
          unfold pad2
          rw [if_neg (by omega)]
        rw [hp]
  · decide

/-- Witness for the amended C8 at ten hours exactly. -/
theorem format_duration_mm_pk_agree_witness :
    format_duration_mm (some 36000) = format_duration_pk (some 36000) :=
  (format_duration_mm_pk_agree.1 36000).mpr (Or.inl (by decide))

/-- C3: `MetadataManager.update_multiple_titles` processes its
instructions sequentially through `update_title`; `update_title` maps
every failure of the tag accessor (open exception, unrecognized
container, save exception) to `false` rather than propagating it, the
counts always sum to the number of instructions, and the error list holds
exactly one `(file, "Failed to update")` entry per failed instruction. -/
theorem update_multiple_titles_report (fs : String → TagOpen)
    (updates : List (String × String)) :
    (update_multiple_titles fs updates).success_count
        + (update_multiple_titles fs updates).failed_count = updates.length ∧
    (update_multiple_titles fs updates).errors
        = (updates.filter (fun u => ! update_title fs u.1 u.2)).map
            (fun u => (u.1, "Failed to update")) ∧
    (update_multiple_titles fs updates).failed_count
        = (update_multiple_titles fs updates).errors.length ∧
    (∀ p t, update_title fs p t = true ↔ fs p = TagOpen.container (Except.ok ())) := by
  refine ⟨?_, ?_, ?_, ?_⟩
  · induction updates with
    | nil => simp [update_multiple_titles]
    | cons u us ih =>
      by_cases h : update_title fs u.1 u.2 <;>
        simp [update_multiple_titles, h] <;> omega
  · induction updates with
    | nil => simp [update_multiple_titles]
    | cons u us ih =>
      by_cases h : update_title fs u.1 u.2 <;>
        simp [update_multiple_titles, h, ih]
  · induction updates with
    | nil => simp [update_multiple_titles]
    | cons u us ih =>
      by_cases h : update_title fs u.1 u.2 <;>
        simp [update_multiple_titles, h, ih]
  · intro p t
    unfold update_title
    cases hfs : fs p with
    | failure msg => simp [hfs]
    | noContainer => simp [hfs]
    | container r =>
      cases r with
      | error e => simp
      | ok u => simp

/-- C10: every descriptive tag field produced by
`MetadataManager.extract_metadata` is either `none` or a non-empty
string, because `_get_tag` normalizes both a missing tag and a stored
empty string to `none`. -/
theorem extract_metadata_tag_fields (tags : String → Option (List String))
    (file_path filename : String) (duration bitrate sample_rate file_size : Nat)
    (fsf cd fmt : String) :
    ((extract_metadata tags file_path filename duration bitrate sample_rate
        file_size fsf cd fmt).title = none ∨
      ∃ v, (extract_metadata tags file_path filename duration bitrate sample_rate
        file_size fsf cd fmt).title = some v ∧ v ≠ "") ∧
    ((extract_metadata tags file_path filename duration bitrate sample_rate
        file_size fsf cd fmt).artist = none ∨
      ∃ v, (extract_metadata tags file_path filename duration bitrate sample_rate
        file_size fsf cd fmt).artist = some v ∧ v ≠ "") ∧
    ((extract_metadata tags file_path filename duration bitrate sample_rate
        file_size fsf cd fmt).album = none ∨
      ∃ v, (extract_metadata tags file_path filename duration bitrate sample_rate
        file_size fsf cd fmt).album = some v ∧ v ≠ "") ∧
    ((extract_metadata tags file_path filename duration bitrate sample_rate
        file_size fsf cd fmt).genre = none ∨
      ∃ v, (extract_metadata tags file_path filename duration bitrate sample_rate
        file_size fsf cd fmt).genre = some v ∧ v ≠ "") ∧
    ((extract_metadata tags file_path filename duration bitrate sample_rate
        file_size fsf cd fmt).date = none ∨
      ∃ v, (extract_metadata tags file_path filename duration bitrate sample_rate
        file_size fsf cd fmt).date = some v ∧ v ≠ "") ∧
    ((extract_metadata tags file_path filename duration bitrate sample_rate
        file_size fsf cd fmt).comment = none ∨
      ∃ v, (extract_metadata tags file_path filename duration bitrate sample_rate
        file_size fsf cd fmt).comment = some v ∧ v ≠ "") ∧
    (∀ name, tags name = none → get_tag tags name = none) ∧
    (∀ name rest, tags name = some ("" :: rest) → get_tag tags name = none) := by
  have key : ∀ name, get_tag tags name = none ∨
      ∃ v, get_tag tags name = some v ∧ v ≠ "" := by
    intro name
    unfold get_tag
    cases h : (tags name).getD [""] with
    | nil => exact Or.inl rfl
    | cons v vs =>
      by_cases hv : v = ""
      · exact Or.inl (by simp [hv])
      · exact Or.inr ⟨v, by simp [hv], hv⟩
  refine ⟨key "title", key "artist", key "album", key "genre", key "date",
    key "comment", ?_, ?_⟩
  · intro name h
    unfold get_tag
    rw [h]
    rfl
  · intro name rest h
    unfold get_tag
    rw [h]
    rfl

/-- Witness for C10 on a concrete tag container: a missing tag and a tag
stored as the empty string both come out as `none`. -/
theorem extract_metadata_tag_fields_witness :
    get_tag tagsSample "comment" = none ∧ get_tag tagsSample "artist" = none :=
  ⟨(extract_metadata_tag_fields tagsSample "" "" 0 0 0 0 "" "" "").2.2.2.2.2.2.1
      "comment" (by decide),
    (extract_metadata_tag_fields tagsSample "" "" 0 0 0 0 "" "" "").2.2.2.2.2.2.2
      "artist" [] (by decide)⟩

/-- C9 counterexample: at 1024 terabytes the loop of
`MetadataManager._format_size` exhausts its unit list and renders in
`"PB"`, a unit outside the claimed `B, KB, MB, GB, TB` sequence, instead
of staying in the terminal `"TB"` unit regardless of magnitude. -/
theorem format_size_pb_fallthrough :
    format_size ((1024 : ℚ) ^ 5) = (1, "PB") ∧
    sizeUnits.contains "PB" = false ∧
    ("PB" : String) ≠ "TB" := by
  refine ⟨?_, by decide, by decide⟩
  norm_num [format_size, format_size_steps, sizeUnits]

/-- C9 amended: the loop stops at the first unit of `B, KB, MB, GB, TB`
where the running value is below 1024 and, when the value is still at
least 1024 at `TB`, divides once more and falls through to `PB`; the
numeric part lies in `[0, 1024)` in every unit except the terminal `PB`. -/
theorem format_size_spec (b : ℚ) (hb : 0 ≤ b) :
    (b < 1024 → format_size b = (b, "B")) ∧
    (1024 ≤ b → b < 1024 ^ 2 → format_size b = (b / 1024, "KB")) ∧
    (1024 ^ 2 ≤ b → b < 1024 ^ 3 → format_size b = (b / 1024 ^ 2, "MB")) ∧
    (1024 ^ 3 ≤ b → b < 1024 ^ 4 → format_size b = (b / 1024 ^ 3, "GB")) ∧
    (1024 ^ 4 ≤ b → b < 1024 ^ 5 → format_size b = (b / 1024 ^ 4, "TB")) ∧
    (1024 ^ 5 ≤ b → format_size b = (b / 1024 ^ 5, "PB")) ∧
    ((format_size b).2 ≠ "PB" → 0 ≤ (format_size b).1 ∧ (format_size b).1 < 1024) := by
  have h0 : (0 : ℚ) < 1024 := by norm_num
  have hB : b < 1024 → format_size b = (b, "B") := by
    intro h1
    simp only [format_size, sizeUnits, format_size_steps]
    rw [if_pos h1]
  have hKB : 1024 ≤ b → b < 1024 ^ 2 → format_size b = (b / 1024, "KB") := by
    intro h1 h2
    simp only [format_size, sizeUnits, format_size_steps]
    rw [if_neg (not_lt.mpr h1)]
    rw [if_pos (by rw [div_lt_iff h0]; norm_num at h2 ⊢; linarith)]
  have hMB : 1024 ^ 2 ≤ b → b < 1024 ^ 3 → format_size b = (b / 1024 ^ 2, "MB") := by
    intro h1 h2
    simp only [format_size, sizeUnits, format_size_steps]
    rw [if_neg (not_lt.mpr (by norm_num at h1 ⊢; linarith))]
    rw [if_neg (not_lt.mpr (by rw [le_div_iff h0]; norm_num at h1 ⊢; linarith))]
    rw [if_pos (by rw [div_lt_iff h0, div_lt_iff h0]; norm_num at h2 ⊢; linarith)]
    rw [div_div]
    norm_num
  have hGB : 1024 ^ 3 ≤ b → b < 1024 ^ 4 → format_size b = (b / 1024 ^ 3, "GB") := by
    intro h1 h2
    simp only [format_size, sizeUnits, format_size_steps]
    rw [if_neg (not_lt.mpr (by norm_num at h1 ⊢; linarith))]
    rw [if_neg (not_lt.mpr (by rw [le_div_iff h0]; norm_num at h1 ⊢; linarith))]
    rw [if_neg (not_lt.mpr (by rw [le_div_iff h0, le_div_iff h0]; norm_num at h1 ⊢; linarith))]
    rw [if_pos (by rw [div_lt_iff h0, div_lt_iff h0, div_lt_iff h0]; norm_num at h2 ⊢; linarith)]
    rw [div_div, div_div]
    norm_num
  have hTB : 1024 ^ 4 ≤ b → b < 1024 ^ 5 → format_size b = (b / 1024 ^ 4, "TB") := by
    intro h1 h2
    simp only [format_size, sizeUnits, format_size_steps]
    rw [if_neg (not_lt.mpr (by norm_num at h1 ⊢; linarith))]
    rw [if_neg (not_lt.mpr (by rw [le_div_iff h0]; norm_num at h1 ⊢; linarith))]
    rw [if_neg (not_lt.mpr (by rw [le_div_iff h0, le_div_iff h0]; norm_num at h1 ⊢; linarith))]
    rw [if_neg (not_lt.mpr (by rw [le_div_iff h0, le_div_iff h0, le_div_iff h0]; norm_num at h1 ⊢; linarith))]
    rw [if_pos (by rw [div_lt_iff h0, div_lt_iff h0, div_lt_iff h0, div_lt_iff h0]; norm_num at h2 ⊢; linarith)]
    rw [div_div, div_div, div_div]
    norm_num
  have hPB : 1024 ^ 5 ≤ b → format_size b = (b / 1024 ^ 5, "PB") := by
    intro h1
    simp only [format_size, sizeUnits, format_size_steps]
    rw [if_neg (not_lt.mpr (by norm_num at h1 ⊢; linarith))]
    rw [if_neg (not_lt.mpr (by rw [le_div_iff h0]; norm_num at h1 ⊢; linarith))]
    rw [if_neg (not_lt.mpr (by rw [le_div_iff h0, le_div_iff h0]; norm_num at h1 ⊢; linarith))]
    rw [if_neg (not_lt.mpr (by rw [le_div_iff h0, le_div_iff h0, le_div_iff h0]; norm_num at h1 ⊢; linarith))]
    rw [if_neg (not_lt.mpr (by rw [le_div_iff h0, le_div_iff h0, le_div_iff h0, le_div_iff h0]; norm_num at h1 ⊢; linarith))]
    rw [div_div, div_div, div_div, div_div]
    norm_num
  refine ⟨hB, hKB, hMB, hGB, hTB, hPB, ?_⟩
  intro hne
  rcases lt_or_le b 1024 with c1 | c1
  · rw [hB c1]
    exact ⟨hb, c1⟩
  rcases lt_or_le b (1024 ^ 2) with c2 | c2
  · rw [hKB c1 c2]
    refine ⟨div_nonneg hb (by norm_num), ?_⟩
    rw [div_lt_iff h0]
    norm_num at c2 ⊢
    linarith
  rcases lt_or_le b (1024 ^ 3) with c3 | c3
  · rw [hMB c2 c3]
    refine ⟨div_nonneg hb (by norm_num), ?_⟩
    rw [div_lt_iff (by norm_num : (0 : ℚ) < 1024 ^ 2)]
    norm_num at c3 ⊢
    linarith
  rcases lt_or_le b (1024 ^ 4) with c4 | c4
  · rw [hGB c3 c4]
    refine ⟨div_nonneg hb (by norm_num), ?_⟩
    rw [div_lt_iff (by norm_num : (0 : ℚ) < 1024 ^ 3)]
    norm_num at c4 ⊢
    linarith
  rcases lt_or_le b (1024 ^ 5) with c5 | c5
  · rw [hTB c4 c5]
    refine ⟨div_nonneg hb (by norm_num), ?_⟩
    rw [div_lt_iff (by norm_num : (0 : ℚ) < 1024 ^ 4)]
    norm_num at c5 ⊢
    linarith
  · exfalso
    apply hne
    rw [hPB c5]

/-- Witness for the amended C9: 2048 bytes land in the `KB` unit. -/
theorem format_size_spec_witness :
    format_size 2048 = (2048 / 1024, "KB") :=
  (format_size_spec 2048 (by norm_num)).2.1 (by norm_num) (by norm_num)

theorem setFirstTitle_no_match (fp nt : String) :
    ∀ l : List AudioMetadata, (∀ r ∈ l, r.file_path ≠ fp) → setFirstTitle fp nt l = l
  | [], _ => rfl
  | r :: rs, h => by
    unfold setFirstTitle
    rw [if_neg (by simpa using h r (List.mem_cons_self r rs))]
    rw [setFirstTitle_no_match fp nt rs (fun r' hr' => h r' (List.mem_cons_of_mem r hr'))]

theorem setFirstTitle_first_match (fp nt : String) :
    ∀ (l₁ : List AudioMetadata) (r : AudioMetadata) (l₂ : List AudioMetadata),
      (∀ r' ∈ l₁, r'.file_path ≠ fp) → r.file_path = fp →
      setFirstTitle fp nt (l₁ ++ r :: l₂) = l₁ ++ { r with title := some nt } :: l₂
  | [], r, l₂, _, hr => by
    simp only [List.nil_append, setFirstTitle]
    rw [if_pos (by simpa using hr)]
  | a :: l₁, r, l₂, h1, hr => by
    simp only [List.cons_append, setFirstTitle, List.append_eq]
    rw [if_neg (by simpa using h1 a (List.mem_cons_self a l₁))]
    rw [setFirstTitle_first_match fp nt l₁ r l₂
      (fun r' hr' => h1 r' (List.mem_cons_of_mem a hr')) hr]

/-- C6: one title-update request of the serving layer, on a successful
on-disk write, replaces exactly the title of the first in-memory record
whose `file_path` matches, leaving its other fields, every preceding
non-matching record and every later record untouched; a failed write
leaves the whole collection unchanged. -/
theorem update_title_endpoint_frame (writeOk : Bool)
    (records : List AudioMetadata) (fp nt : String) :
    (writeOk = false → update_title_endpoint writeOk records fp nt = records) ∧
    (writeOk = true →
      ((∀ r ∈ records, r.file_path ≠ fp) →
        update_title_endpoint writeOk records fp nt = records) ∧
      (∀ (l₁ : List AudioMetadata) (r : AudioMetadata) (l₂ : List AudioMetadata),
        records = l₁ ++ r :: l₂ → (∀ r' ∈ l₁, r'.file_path ≠ fp) →
        r.file_path = fp →
        update_title_endpoint writeOk records fp nt
          = l₁ ++ { r with title := some nt } :: l₂)) := by
  constructor
  · intro h
    unfold update_title_endpoint
    rw [h, if_neg (by simp)]
  · intro h
    constructor
    · intro hnone
      unfold update_title_endpoint
      rw [h, if_pos rfl]
      exact setFirstTitle_no_match fp nt records hnone
    · intro l₁ r l₂ hsplit h1 hr
      unfold update_title_endpoint
      rw [h, if_pos rfl, hsplit]
      exact setFirstTitle_first_match fp nt l₁ r l₂ h1 hr

/-- Witness for C6 on a two-record library whose second record matches. -/
theorem update_title_endpoint_frame_witness :
    update_title_endpoint true
        [mdOf "/lib/a.mp3" "a.mp3" (some "A"), mdOf "/lib/b.mp3" "b.mp3" none]
        "/lib/b.mp3" "New Title"
      = [mdOf "/lib/a.mp3" "a.mp3" (some "A"),
         { mdOf "/lib/b.mp3" "b.mp3" none with title := some "New Title" }] :=
  (update_title_endpoint_frame true
      [mdOf "/lib/a.mp3" "a.mp3" (some "A"), mdOf "/lib/b.mp3" "b.mp3" none]
      "/lib/b.mp3" "New Title").2 rfl |>.2
    [mdOf "/lib/a.mp3" "a.mp3" (some "A")] (mdOf "/lib/b.mp3" "b.mp3" none) []
    rfl (by decide) rfl

theorem tsStartMatch_iff (t : String) :
    tsStartMatch t.toList = true ↔ SpecTsStart t := by
  constructor
  · intro h
    unfold tsStartMatch at h
    rw [Bool.and_eq_true, Bool.or_eq_true] at h
    obtain ⟨h8, hrest⟩ := h
    unfold digitsAt at h8
    rw [Bool.and_eq_true, decide_eq_true_eq] at h8
    obtain ⟨hlen8, hdig8⟩ := h8
    rcases hrest with h6 | hsep
    · unfold digitsAt at h6
      rw [Bool.and_eq_true, decide_eq_true_eq] at h6
      obtain ⟨hlen6, hdig6⟩ := h6
      refine ⟨t.toList.take 8, [], (t.toList.drop 8).take 6, (t.toList.drop 8).drop 6,
        ?_, ?_, ?_, ?_, ?_, Or.inl rfl⟩
      · rw [List.nil_append, List.take_append_drop, List.take_append_drop]
      · rw [List.length_take]
        exact inf_eq_left.mpr hlen8
      · exact fun c hc => List.all_eq_true.mp hdig8 c hc
      · rw [List.length_take]
        exact inf_eq_left.mpr hlen6
      · exact fun c hc => List.all_eq_true.mp hdig6 c hc
    · cases hd : t.toList.drop 8 with
      | nil =>
        rw [hd] at hsep
        exact absurd hsep (by simp)
      | cons c rest =>
        rw [hd] at hsep
        simp only [Bool.and_eq_true] at hsep
        obtain ⟨hc, h6⟩ := hsep
        unfold digitsAt at h6
        rw [Bool.and_eq_true, decide_eq_true_eq] at h6
        obtain ⟨hlen6, hdig6⟩ := h6
        refine ⟨t.toList.take 8, [c], rest.take 6, rest.drop 6,
          ?_, ?_, ?_, ?_, ?_, Or.inr ⟨c, hc, rfl⟩⟩
        · rw [List.take_append_drop, List.singleton_append, ← hd, List.take_append_drop]
        · rw [List.length_take]
          exact inf_eq_left.mpr hlen8
        · exact fun c' hc' => List.all_eq_true.mp hdig8 c' hc'
        · rw [List.length_take]
          exact inf_eq_left.mpr hlen6
        · exact fun c' hc' => List.all_eq_true.mp hdig6 c' hc'
  · rintro ⟨d8, sep, d6, rest, heq, hl8, hd8, hl6, hd6, hsep⟩
    unfold tsStartMatch
    rw [Bool.and_eq_true, Bool.or_eq_true]
    have hdrop : t.toList.drop 8 = sep ++ (d6 ++ rest) := by
      rw [heq, List.drop_left' hl8]
    refine ⟨?_, ?_⟩
    · unfold digitsAt
      rw [Bool.and_eq_true, decide_eq_true_eq]
      constructor
      · rw [heq, List.length_append]
        omega
      · rw [heq, List.take_left' hl8]
        exact List.all_eq_true.mpr hd8
    · rcases hsep with rfl | ⟨c, hc, rfl⟩
      · left
        unfold digitsAt
        rw [Bool.and_eq_true, decide_eq_true_eq]
        rw [List.nil_append] at hdrop
        rw [hdrop]
        constructor
        · rw [List.length_append]
          omega
        · rw [List.take_left' hl6]
          exact List.all_eq_true.mpr hd6
      · right
        rw [List.singleton_append] at hdrop
        rw [hdrop]
        simp only [Bool.and_eq_true]
        refine ⟨hc, ?_⟩
        unfold digitsAt
        rw [Bool.and_eq_true, decide_eq_true_eq]
        constructor
        · rw [List.length_append]
          omega
        · rw [List.take_left' hl6]
          exact List.all_eq_true.mpr hd6

/-- C4 amended: `_is_generic_title` holds exactly when the title equals
the extension-stripped filename, or starts with 8 digits optionally
followed by one separator drawn from the regex class `[\s_-]` — any
whitespace character, underscore or hyphen, wider than the spec's
space-only wording — and 6 digits, or is shorter than 3 characters; the
spec's two examples evaluate as stated. -/
theorem isGenericTitle_iff :
    (∀ t f : String,
      isGenericTitle t f = true ↔ (t = stripExt f ∨ SpecTsStart t ∨ t.length < 3)) ∧
    isGenericTitle "20240304 153000" "20240304_153000.m4a" = true ∧
    isGenericTitle "Band Meeting Notes" "rec1.mp3" = false := by
  refine ⟨?_, by decide, by decide⟩
  intro t f
  unfold isGenericTitle
  rw [Bool.or_eq_true, Bool.or_eq_true, beq_iff_eq, decide_eq_true_eq, tsStartMatch_iff]
  tauto

/-- C4 counterexample: the code's separator class is all of `\s`, not
just the space of the claim's wording: the title `"20240304\t153000"`
(tab separator) is judged generic by the code although the claim's
three conditions — with its space/underscore/hyphen separator set — all
fail on it. -/
theorem isGenericTitle_tab_separator :
    isGenericTitle "20240304\t153000" "x.mp3" = true ∧
    claimIsGeneric "20240304\t153000" "x.mp3" = false := by
  refine ⟨by decide, by decide⟩

theorem formatRecordingDate_ne_empty (y m d : Nat) :
    formatRecordingDate y m d ≠ "" := by
  intro h
  have hlen := congrArg String.length h
  simp only [formatRecordingDate, String.length_append] at hlen
  have h10 : ("Recording " : String).length = 10 := rfl
  have h0 : ("" : String).length = 0 := rfl
  omega

/-- C5: `generate_suggestion` keeps a present, non-generic title
unchanged; otherwise, when the date rule does not match, it returns the
cleaned filename (extension stripped, `_`/`-` to spaces,
timestamp-shaped runs removed, whitespace collapsed, trimmed, first
character capitalized, falling back to the original filename when the
cleaned string is empty); in particular `"my-great_idea.mp3"` cleans to
`"My great idea"`. -/
theorem generate_suggestion_fallback (m : AudioMetadata) :
    (m.title.getD "" ≠ "" →
      isGenericTitle (m.title.getD "") m.filename = false →
      generate_suggestion m = m.title.getD "") ∧
    ((m.title.getD "" = "" ∨ isGenericTitle (m.title.getD "") m.filename = true) →
      extractDateBasedTitle m.filename = "" →
      generate_suggestion m = cleanFilename m.filename) ∧
    cleanFilename "my-great_idea.mp3" = "My great idea" := by
  refine ⟨?_, ?_, by decide⟩
  · intro h1 h2
    unfold generate_suggestion
    rw [if_pos ⟨h1, h2⟩]
  · intro h1 h2
    unfold generate_suggestion
    rw [if_neg ?_, if_neg (by simpa using h2)]
    rcases h1 with h1 | h1
    · exact fun hc => hc.1 h1
    · exact fun hc => by rw [h1] at hc; exact Bool.noConfusion hc.2

/-- Witness for C5 on a title-less record with filename
`"my-great_idea.mp3"`. -/
theorem generate_suggestion_fallback_witness :
    generate_suggestion (mdOf "/a/my-great_idea.mp3" "my-great_idea.mp3" none)
      = "My great idea" :=
  ((generate_suggestion_fallback
      (mdOf "/a/my-great_idea.mp3" "my-great_idea.mp3" none)).2.1
    (Or.inl rfl) (by decide)).trans (by decide)

/-- C1 amended: when the title is absent or generic, the suggester
examines only the leftmost window of eight consecutive digits in the
filename: if that window's groups form a valid calendar date the result
is `"Recording <Month> <DD>, <Y>"`, and otherwise — including when a
later window would form a valid date — the rule falls through to
filename cleaning. -/
theorem generate_suggestion_date_rule (m : AudioMetadata)
    (h : m.title.getD "" = "" ∨ isGenericTitle (m.title.getD "") m.filename = true) :
    generate_suggestion m =
      (match searchDate8 m.filename.toList with
       | some (y, mo, d) =>
         if validDate y mo d = true then formatRecordingDate y mo d
         else cleanFilename m.filename
       | none => cleanFilename m.filename) := by
  unfold generate_suggestion
  rw [if_neg ?_]
  · unfold extractDateBasedTitle
    cases hsd : searchDate8 m.filename.toList with
    | none => simp
    | some ymd =>
      obtain ⟨y, mo, d⟩ := ymd
      by_cases hv : validDate y mo d = true
      · simp [hv, formatRecordingDate_ne_empty y mo d]
      · rw [Bool.not_eq_true] at hv
        simp [hv]
  · rcases h with h1 | h1
    · exact fun hc => hc.1 h1
    · exact fun hc => by rw [h1] at hc; exact Bool.noConfusion hc.2

/-- Witness for the amended C1 on the spec's example filename. -/
theorem generate_suggestion_date_rule_witness :
    generate_suggestion (mdOf "/a/20240304_153000.m4a" "20240304_153000.m4a" none)
      = "Recording March 04, 2024" :=
  (generate_suggestion_date_rule
      (mdOf "/a/20240304_153000.m4a" "20240304_153000.m4a" none)
      (Or.inl rfl)).trans (by decide)

/-- C1 counterexample: the filename `"99991399_20240304.m4a"` contains
the contiguous 8-digit run `20240304`, a valid calendar date, yet the
suggester returns `"04"`: the leftmost run `99991399` fails date
validation and the rule falls through to filename cleaning without
trying later runs. -/
theorem generate_suggestion_valid_run_ignored :
    hasValidDateRun "99991399_20240304.m4a".toList = true ∧
    generate_suggestion (mdOf "/a/99991399_20240304.m4a" "99991399_20240304.m4a" none)
      = "04" ∧
    ("04" : String) ≠ "Recording March 04, 2024" := by
  refine ⟨by decide, by decide, by decide⟩

theorem cleanFilename_eq_empty {f : String} (h : cleanFilename f = "") :
    f = "" := by
  simp only [cleanFilename] at h
  split at h
  · exact h
  · rename_i hne
    exact absurd h hne

theorem gen_of_ne_current {m : AudioMetadata}
    (h : generate_suggestion m ≠ currentTitle m) :
    generate_suggestion m =
      (if extractDateBasedTitle m.filename ≠ "" then extractDateBasedTitle m.filename
       else cleanFilename m.filename) := by
  by_cases hc : (m.title.getD "" ≠ "" ∧
      isGenericTitle (m.title.getD "") m.filename = false)
  · exfalso
    apply h
    unfold generate_suggestion currentTitle
    rw [if_pos hc, if_neg hc.1]
  · unfold generate_suggestion
    rw [if_neg hc]

theorem gen_applyOne (m : AudioMetadata) :
    generate_suggestion
        (if generate_suggestion m ≠ currentTitle m then
          { m with title := some (generate_suggestion m) }
        else m)
      = currentTitle
        (if generate_suggestion m ≠ currentTitle m then
          { m with title := some (generate_suggestion m) }
        else m) := by
  by_cases h : generate_suggestion m ≠ currentTitle m
  · simp only [if_pos h]
    have hdc := gen_of_ne_current h
    set s := generate_suggestion m with hs
    unfold generate_suggestion currentTitle
    dsimp only [Option.getD_some]
    by_cases hse : s = ""
    · have hfn : m.filename = "" := by
        rw [hse] at hdc
        by_cases hex : extractDateBasedTitle m.filename ≠ ""
        · rw [if_pos hex] at hdc
          exact absurd hdc.symm hex
        · rw [if_neg hex] at hdc
          exact cleanFilename_eq_empty hdc.symm
      rw [hse, hfn]
      decide
    · by_cases hg : isGenericTitle s m.filename = true
      · rw [if_neg (fun hc => absurd hc.2 (by simp [hg]))]
        rw [← hdc, if_neg hse]
      · have hgf : isGenericTitle s m.filename = false :=
          Bool.not_eq_true _ ▸ hg
        rw [if_pos ⟨hse, hgf⟩, if_neg hse]
  · simp only [if_neg h]
    exact not_ne_iff.mp h

/-- C2: `get_suggestions_for_library` never emits a suggestion equal to
its own current title, and applying every emitted suggestion back to the
library (setting each suggested record's title to its suggested string)
makes a re-run emit no suggestion at all. -/
theorem suggestions_nontrivial_and_idempotent :
    (∀ (ms : List AudioMetadata) (s : TitleSuggestion),
      s ∈ get_suggestions_for_library ms → s.suggested_title ≠ s.current_title) ∧
    (∀ ms : List AudioMetadata,
      get_suggestions_for_library (applySuggestions ms) = []) := by
  constructor
  · intro ms s hs
    unfold get_suggestions_for_library at hs
    obtain ⟨m, _, hm⟩ := List.mem_filterMap.mp hs
    by_cases h : generate_suggestion m ≠ currentTitle m
    · rw [if_pos h] at hm
      injection hm with hm
      subst hm
      exact h
    · rw [if_neg h] at hm
      exact absurd hm (by simp)
  · intro ms
    unfold applySuggestions get_suggestions_for_library
    rw [List.filterMap_map]
    rw [List.filterMap_eq_nil]
    intro m _
    simp only [Function.comp]
    exact if_neg (fun hcon => hcon (gen_applyOne m))

/-- Witness for C2 on the spec's scan scenario: the dateless-filename
record receives the date-based suggestion, which differs from its current
title, and after applying it a second run yields no suggestions. -/
theorem suggestions_nontrivial_and_idempotent_witness :
    ("Recording January 01, 2023" : String) ≠ "20230101_120000.mp3" ∧
    get_suggestions_for_library
        (applySuggestions [mdOf "/a/20230101_120000.mp3" "20230101_120000.mp3" none])
      = [] :=
  ⟨suggestions_nontrivial_and_idempotent.1
      [mdOf "/a/20230101_120000.mp3" "20230101_120000.mp3" none]
      ⟨"/a/20230101_120000.mp3", "20230101_120000.mp3", "20230101_120000.mp3",
        "Recording January 01, 2023"⟩ (by decide),
    suggestions_nontrivial_and_idempotent.2
      [mdOf "/a/20230101_120000.mp3" "20230101_120000.mp3" none]⟩

end Peacock
